import Mathlib

/-!
Shallow embedding of `src/bio.hpp` (namespace `ck::bio`): the buffer- and
stream-backed readers and writers.

Machine integers: `size_t` values are `Nat`, with the wraparound of a cast
modelled by `size_t_of` where the source casts; `pos_t = std::streamoff`
values are `Int`.  The external `std::istream` / `std::ostream`
collaborators are modelled as explicit states with file-stream semantics:
`seekg` / `seekp` to any non-negative absolute position succeeds (also past
the end), a negative target sets the fail bit, `tellg` / `tellp` report `-1`
on a failed (or eof, for input) stream, and a short `istream::read` sets
both the eof and the fail bit.  A null pointer argument is modelled as
`none` (for a data pointer) or a `Bool` flag (for a destination pointer).
-/

namespace Bio

abbrev Byte := Nat

/-- `(size_t)i` for a 64-bit `size_t`. -/
def size_t_of (i : Int) : Nat := (i % 18446744073709551616).toNat

/-- `std::vector<uint8_t>::resize(n)`: truncate, or zero-extend, to length `n`. -/
def listResize (l : List Byte) (n : Nat) : List Byte :=
  l.take n ++ List.replicate (n - l.length) 0

/-- `memcpy(dst.data() + i, xs, xs.length)` into a byte vector. -/
def spliceAt (l : List Byte) (i : Nat) (xs : List Byte) : List Byte :=
  l.take i ++ xs ++ l.drop (i + xs.length)

/-! ## `basic_reader<Buffer>`

The pointer form `(data, size)` and the vector form both expose the same
bytes through `ptr()` / `end()`, so the state collapses to an optional byte
list (`none` models a null source pointer, i.e. an unbound reader) plus the
cursor `_cur`. -/

structure BufReader where
  src : Option (List Byte)
  cur : Nat
deriving DecidableEq

/-- `basic_reader<Buffer>::pos`. -/
def bufPos (r : BufReader) : Nat := r.cur

/-- `basic_reader<Buffer>::read(buf, size)`: returns the count, the bytes
copied into `buf`, and the new reader state.  `dstNull` models `buf`
being a null pointer.  `remain = end() - _cur` is `size_t` subtraction in
the source; with the reachable-state invariant `_cur ≤ end()` it agrees
with truncated `Nat` subtraction. -/
def bufRead (r : BufReader) (dstNull : Bool) (size : Nat) :
    Nat × List Byte × BufReader :=
  match r.src with
  | none => (0, [], r)
  | some d =>
    if dstNull ∨ size < 1 then (0, [], r)
    else
      let remain := d.length - r.cur
      if remain < 1 then (0, [], r)
      else
        let sz := if remain < size then remain else size
        (sz, (d.drop r.cur).take sz, { r with cur := r.cur + sz })

/-- `basic_reader<Buffer>::seek(pos)`: to the end when `pos < 0` or past the
end, else to `pos`; returns the position after the seek. -/
def bufSeek (r : BufReader) (pos : Int) : Nat × BufReader :=
  match r.src with
  | none => (0, r)
  | some d =>
    let e := d.length
    let cur := if 0 ≤ pos ∧ pos < (e : Int) then pos.toNat else e
    (cur, { r with cur := cur })

/-- `basic_reader<Buffer>::offset(ofs)`.  The source clamps a negative
target to 0 and an overlarge target to `end()`, and has no branch for an
in-range target: there the cursor is left where it was. -/
def bufOffset (r : BufReader) (ofs : Int) : Nat × BufReader :=
  match r.src with
  | none => (0, r)
  | some d =>
    let c := (r.cur : Int) + ofs
    let cur := if c < 0 then 0 else if (d.length : Int) < c then d.length else r.cur
    (cur, { r with cur := cur })

/-- `basic_reader<Buffer>::basic_reader(basic_reader&&)`: the new reader
copies `d`, `_cur` and `_is_buffer`; the moved-from reader gets a null data
pointer, size 0 and cursor 0.  Returns (new reader, moved-from reader). -/
def bufMove (r : BufReader) : BufReader × BufReader :=
  (⟨r.src, r.cur⟩, ⟨none, 0⟩)

/-! ## `basic_writer<Buffer>` -/

structure BufWriter where
  buf : List Byte
  cur : Nat
deriving DecidableEq

/-- `basic_writer<Buffer>::pos`. -/
def bwPos (w : BufWriter) : Nat := w.cur

/-- `basic_writer<Buffer>::write(buf, size)`: `src = none` models a null
source pointer; when `src = some d`, the `size` bytes at the pointer are
`d.take size`.  The source computes `size_t sub = _cur + size - _buf.size()`
and resizes when `sub > 0`; since `sub` is unsigned, that condition is
`_cur + size ≠ _buf.size()` (a deficit wraps around to a huge value), so a
write that ends strictly before the current end *shrinks* the vector to
`_cur + size`. -/
def bufWrite (w : BufWriter) (src : Option (List Byte)) (size : Nat) :
    Nat × BufWriter :=
  match src with
  | none => (0, w)
  | some d =>
    if size < 1 then (0, w)
    else
      let buf1 := if w.cur + size ≠ w.buf.length
        then listResize w.buf (w.cur + size) else w.buf
      let buf2 := spliceAt buf1 w.cur (d.take size)
      (size, ⟨buf2, w.cur + size⟩)

/-- `basic_writer<Buffer>::seek(pos)`. -/
def bwSeek (w : BufWriter) (pos : Int) : Nat × BufWriter :=
  let e := w.buf.length
  let cur := if 0 ≤ pos ∧ pos < (e : Int) then pos.toNat else e
  (cur, { w with cur := cur })

/-- `basic_writer<Buffer>::offset(ofs)`: same shape as the reader's
`offset`, including the missing in-range branch. -/
def bwOffset (w : BufWriter) (ofs : Int) : Nat × BufWriter :=
  let c := (w.cur : Int) + ofs
  let cur := if c < 0 then 0 else if (w.buf.length : Int) < c then w.buf.length else w.cur
  (cur, { w with cur := cur })

/-! ## The external `std::istream` model -/

structure IStream where
  size : Nat
  g : Nat
  eofbit : Bool
  failbit : Bool
deriving DecidableEq

/-- `istream::tellg()`: `-1` when the stream is failed or at eof (the
sentry fails), else the get position. -/
def tellg (s : IStream) : Int :=
  if s.failbit ∨ s.eofbit then -1 else (s.g : Int)

/-- `istream::seekg(0, std::ios::end)`. -/
def seekgEnd (s : IStream) : IStream :=
  if s.failbit then s else { s with g := s.size, eofbit := false }

/-- `istream::seekg(t, std::ios::beg)`: a negative absolute target fails;
any non-negative target (also past the end) succeeds on a file stream. -/
def seekgAbs (s : IStream) (t : Int) : IStream :=
  if s.failbit then s
  else if t < 0 then { s with eofbit := false, failbit := true }
  else { s with g := t.toNat, eofbit := false }

/-- `istream::seekg(o, std::ios::cur)`. -/
def seekgCur (s : IStream) (o : Int) : IStream :=
  if s.failbit then s
  else
    let t := (s.g : Int) + o
    if t < 0 then { s with eofbit := false, failbit := true }
    else { s with g := t.toNat, eofbit := false }

/-- `istream::read(buf, n)` followed by `gcount()`: returns the count read
and the stream afterwards.  A short read sets eof and fail. -/
def isRead (s : IStream) (n : Nat) : Nat × IStream :=
  if s.failbit ∨ s.eofbit then (0, { s with failbit := true })
  else
    let avail := s.size - s.g
    if n ≤ avail then (n, { s with g := s.g + n })
    else (avail, { s with g := s.size, eofbit := true, failbit := true })

/-! ## `basic_reader<Stream>` -/

structure SReader where
  si : IStream
  beg : Nat
  remain : Nat
deriving DecidableEq

/-- `basic_reader<Stream>::pos()` = `(size_t)_si.tellg() - _beg`. -/
def srPos (r : SReader) : Nat := size_t_of (tellg r.si) - r.beg

/-- `basic_reader<Stream>::basic_reader(std::istream&)`: snapshot `_beg`,
probe the end to compute `_remain = pos()`, restore the position. -/
def mkSReader (si : IStream) : SReader :=
  let beg := size_t_of (tellg si)
  let si1 := seekgEnd si
  let remain := size_t_of (tellg si1) - beg
  ⟨seekgAbs si1 (beg : Int), beg, remain⟩

/-- `basic_reader<Stream>::read(buf, size)`.  The source never checks `buf`
for null: `dstNull` is accepted and ignored, exactly as the code ignores
the possibility. -/
def srRead (r : SReader) (dstNull : Bool) (size : Nat) : Nat × SReader :=
  if r.si.eofbit ∨ r.si.failbit ∨ r.remain < 1 then (0, r)
  else
    let sz := if r.remain < size then r.remain else size
    let res := isRead r.si sz
    (res.1, ⟨res.2, r.beg, r.remain - res.1⟩)

/-- `basic_reader<Stream>::seek(pos)`: seek to the end, read the size, and
for a non-negative target either zero `_remain` (target past end; the
stream stays at the end) or reposition and recompute `_remain`.  A negative
target leaves `_remain` untouched with the stream at the end. -/
def srSeek (r : SReader) (pos : Int) : Nat × SReader :=
  let si1 := seekgEnd r.si
  let sz := tellg si1
  if 0 ≤ pos then
    let p := pos + (r.beg : Int)
    if sz < p then
      let r' : SReader := ⟨si1, r.beg, 0⟩
      (srPos r', r')
    else
      let r' : SReader := ⟨seekgAbs si1 p, r.beg, size_t_of (sz - p)⟩
      (srPos r', r')
  else
    let r' : SReader := ⟨si1, r.beg, r.remain⟩
    (srPos r', r')

/-- `basic_reader<Stream>::offset(ofs)`: a bare relative `seekg`, with
`_remain` left unchanged. -/
def srOffset (r : SReader) (ofs : Int) : Nat × SReader :=
  let r' : SReader := ⟨seekgCur r.si ofs, r.beg, r.remain⟩
  (srPos r', r')

/-! ## The external `std::ostream` model

`cap = some c` models a device that cannot hold more than `c` bytes: a
write past it is the stream fault case (bad/fail bit set); `cap = none` is
an unbounded device on which every write fully succeeds. -/

structure OStream where
  size : Nat
  p : Nat
  failbit : Bool
  cap : Option Nat
deriving DecidableEq

/-- `ostream::tellp()`. -/
def tellp (s : OStream) : Int :=
  if s.failbit then -1 else (s.p : Int)

/-- `ostream::seekp(0, std::ios::end)`. -/
def seekpEnd (s : OStream) : OStream :=
  if s.failbit then s else { s with p := s.size }

/-- `ostream::seekp(t, std::ios::beg)`. -/
def seekpAbs (s : OStream) (t : Int) : OStream :=
  if s.failbit then s
  else if t < 0 then { s with failbit := true }
  else { s with p := t.toNat }

/-- `ostream::seekp(o, std::ios::cur)`. -/
def seekpCur (s : OStream) (o : Int) : OStream :=
  if s.failbit then s
  else
    let t := (s.p : Int) + o
    if t < 0 then { s with failbit := true }
    else { s with p := t.toNat }

/-- `ostream::write(buf, n)`: advance the put position and grow the file,
or fault at the device capacity. -/
def osWrite (s : OStream) (n : Nat) : OStream :=
  if s.failbit then s
  else
    match s.cap with
    | none => { s with p := s.p + n, size := max s.size (s.p + n) }
    | some c =>
      if s.p + n ≤ c then { s with p := s.p + n, size := max s.size (s.p + n) }
      else { s with p := c, size := max s.size c, failbit := true }

/-! ## `basic_writer<Stream>` -/

structure SWriter where
  so : OStream
  beg : Nat
deriving DecidableEq

/-- `basic_writer<Stream>::pos()` = `(size_t)_so.tellp() - _beg`. -/
def swPos (w : SWriter) : Nat := size_t_of (tellp w.so) - w.beg

/-- `basic_writer<Stream>::basic_writer(std::ostream&)`. -/
def mkSWriter (so : OStream) : SWriter := ⟨so, size_t_of (tellp so)⟩

/-- `basic_writer<Stream>::write(buf, size)`: guard on null source, failed
stream, zero size; otherwise write and return `size_t(pos - before)`, or 0
when the post-write `tellp` reports `-1`. -/
def swWrite (w : SWriter) (srcNull : Bool) (size : Nat) : Nat × SWriter :=
  if srcNull ∨ w.so.failbit ∨ size < 1 then (0, w)
  else
    let before := tellp w.so
    let so' := osWrite w.so size
    let p := tellp so'
    if p = -1 then (0, ⟨so', w.beg⟩)
    else (size_t_of (p - before), ⟨so', w.beg⟩)

/-- `basic_writer<Stream>::seek(pos)`: seek to the end, read the tail, and
reposition only when `0 ≤ pos` and `_beg + pos` is strictly before the
tail; otherwise the put position stays at the end just seeked to. -/
def swSeek (w : SWriter) (pos : Int) : Nat × SWriter :=
  let so1 := seekpEnd w.so
  let tail := tellp so1
  let so2 :=
    if 0 ≤ pos ∧ pos + (w.beg : Int) < tail then seekpAbs so1 (pos + (w.beg : Int))
    else so1
  let w' : SWriter := ⟨so2, w.beg⟩
  (swPos w', w')

/-- `basic_writer<Stream>::offset(ofs)`: a bare relative `seekp`. -/
def swOffset (w : SWriter) (ofs : Int) : Nat × SWriter :=
  let w' : SWriter := ⟨seekpCur w.so ofs, w.beg⟩
  (swPos w', w')

/-! ## Operation sequences on a buffer reader (for the move-semantics claim) -/

inductive BOp where
  | rd (dstNull : Bool) (n : Nat)
  | sk (t : Int)
  | ofs (o : Int)

/-- Run one `ireader` operation on a buffer reader, keeping its returned count. -/
def runBOp (r : BufReader) (op : BOp) : Nat × BufReader :=
  match op with
  | .rd dn n => let res := bufRead r dn n; (res.1, res.2.2)
  | .sk t => bufSeek r t
  | .ofs o => bufOffset r o

/-- Run a sequence of operations, collecting every returned count. -/
def runBOps (r : BufReader) (ops : List BOp) : List Nat × BufReader :=
  match ops with
  | [] => ([], r)
  | op :: rest =>
    let res := runBOp r op
    let t := runBOps res.2 rest
    (res.1 :: t.1, t.2)

/-- Well-formedness of a reachable stream-reader state: an un-faulted
stream of `size_t` extent, the begin snapshot at or before the get
position, the get position inside the stream, and the cached `_remain`
exactly the bytes left to the end. -/
def SReaderWF (r : SReader) : Prop :=
  r.si.failbit = false ∧ r.si.eofbit = false ∧
  r.si.size < 18446744073709551616 ∧
  r.beg ≤ r.si.g ∧ r.si.g ≤ r.si.size ∧
  r.remain = r.si.size - r.si.g

instance (r : SReader) : Decidable (SReaderWF r) := by
  unfold SReaderWF; infer_instance

/-- The §3 invariant as the spec states it: the cached `_remain` equals
logical size minus logical position. -/
def remInv (r : SReader) : Prop :=
  r.remain = (r.si.size - r.beg) - srPos r

instance (r : SReader) : Decidable (remInv r) := by
  unfold remInv; infer_instance

/-! ## Claims -/

/-- C1: `basic_writer<Buffer>::write` computes the growth deficit in
*unsigned* arithmetic (`size_t sub = _cur + size - _buf.size()`), so
`sub > 0` holds whenever `_cur + size ≠ _buf.size()`.  A write that ends
strictly before the current end therefore *shrinks* the buffer to
`_cur + size`, dropping the bytes behind the write, contradicting the
claimed frame condition.  Failing input, reached through the public API:
a fresh writer, `write([5,6,7], 3)`, `seek(0)`, then `write([9], 1)`
leaves the buffer as `[9]` of size 1, where the claim demands size 3 and
contents `[9,6,7]`. -/
theorem bufferWriter_interior_write_shrinks_buffer :
    (bwSeek (bufWrite ⟨[], 0⟩ (some [5, 6, 7]) 3).2 0).2 = ⟨[5, 6, 7], 0⟩ ∧
    bufWrite ⟨[5, 6, 7], 0⟩ (some [9]) 1 = (1, ⟨[9], 1⟩) ∧
    (bufWrite ⟨[5, 6, 7], 0⟩ (some [9]) 1).2.buf ≠ [9, 6, 7] := by decide

/-- C2: `read(nullptr, 10)` / `write(nullptr, 10)` return 0 and leave
`pos()` unchanged on the buffer reader (bound or unbound), the buffer
writer and the stream writer — but `basic_reader<Stream>::read` never
checks its destination pointer: on a 10-byte stream it hands the null
pointer to `istream::read` and the transfer proceeds, returning 10 with
`pos()` advanced to 10, contradicting the claim for that backend. -/
theorem null_argument_noop_streamReader_violation :
    bufRead ⟨some [1, 2, 3], 1⟩ true 10 = (0, [], ⟨some [1, 2, 3], 1⟩) ∧
    bufRead ⟨none, 0⟩ true 10 = (0, [], ⟨none, 0⟩) ∧
    bufWrite ⟨[1, 2, 3], 1⟩ none 10 = (0, ⟨[1, 2, 3], 1⟩) ∧
    swWrite (mkSWriter ⟨5, 2, false, none⟩) true 10 = (0, mkSWriter ⟨5, 2, false, none⟩) ∧
    (srRead (mkSReader ⟨10, 0, false, false⟩) true 10).1 = 10 ∧
    srPos (srRead (mkSReader ⟨10, 0, false, false⟩) true 10).2 = 10 := by decide

/-- C3 counterexample: on a fresh `basic_reader<Stream>` over a 2-byte
stream the §3 invariant `_remain = logical size − logical position` holds,
but a single `offset(1)` moves the stream cursor without touching
`_remain`, leaving `_remain = 2` while size − position = 1. -/
theorem streamReader_offset_breaks_remain_invariant :
    remInv (mkSReader ⟨2, 0, false, false⟩) ∧
    ¬ remInv (srOffset (mkSReader ⟨2, 0, false, false⟩) 1).2 := by decide

/-- C4 counterexample: a `basic_writer<Stream>` over a 5-byte stream,
positioned at logical 2, after `seek(10)` (whose absolute target is beyond
the end) reports `pos() = 5`, not the prior 2: the implementation first
seeks to the end and never restores the position, so the call is not a
no-op. -/
theorem streamWriter_seek_beyond_end_not_noop :
    swPos (swSeek (mkSWriter ⟨5, 0, false, none⟩) 2).2 = 2 ∧
    swPos (swSeek (swSeek (mkSWriter ⟨5, 0, false, none⟩) 2).2 10).2 ≠ 2 := by decide

/-- C8 counterexample: a fresh `basic_reader<Stream>` over a 1-byte stream
sits at position 0; `offset(size*2) = offset(2)` is claimed to clamp to
`pos() = 1`, but the stream backend's `offset` is a bare relative `seekg`
(legal past the end on a file), so it yields 2. -/
theorem streamReader_offset_no_clamp :
    (srOffset (mkSReader ⟨1, 0, false, false⟩) 2).1 ≠ 1 := by decide

lemma runBOp_unbound (op : BOp) : runBOp ⟨none, 0⟩ op = (0, ⟨none, 0⟩) := by
  cases op <;> rfl

lemma runBOps_unbound (ops : List BOp) :
    runBOps ⟨none, 0⟩ ops = (List.replicate ops.length 0, ⟨none, 0⟩) := by
  induction ops with
  | nil => rfl
  | cons op rest ih =>
    simp [runBOps, runBOp_unbound, ih, List.replicate_succ]

/-- C10: move-constructing a `basic_reader<Buffer>` transfers the source,
size and cursor to the new reader and leaves the moved-from reader with a
null data pointer and cursor 0; on that unbound state `pos()` is 0, and
any sequence of subsequent `read`/`seek`/`offset` calls returns 0 at every
step and leaves the cursor at 0. -/
theorem bufferReader_move_semantics (src : Option (List Byte)) (c : Nat)
    (ops : List BOp) :
    (bufMove ⟨src, c⟩).1 = ⟨src, c⟩ ∧
    (bufMove ⟨src, c⟩).2 = ⟨none, 0⟩ ∧
    bufPos (bufMove ⟨src, c⟩).2 = 0 ∧
    (runBOps (bufMove ⟨src, c⟩).2 ops).1 = List.replicate ops.length 0 ∧
    (runBOps (bufMove ⟨src, c⟩).2 ops).2 = ⟨none, 0⟩ := by
  refine ⟨rfl, rfl, rfl, ?_, ?_⟩ <;> simp [bufMove, runBOps_unbound]

lemma bufWrite_fresh (b : List Byte) :
    bufWrite ⟨[], 0⟩ (some b) b.length = (b.length, ⟨b, b.length⟩) := by
  cases b with
  | nil => rfl
  | cons x xs =>
    simp [bufWrite, listResize, spliceAt]

lemma bufRead_all (b : List Byte) :
    bufRead ⟨some b, 0⟩ false b.length = (b.length, b, ⟨some b, b.length⟩) := by
  cases b with
  | nil => rfl
  | cons x xs =>
    simp [bufRead]

/-- C5: round-trip identity — writing any byte sequence `b` through a
fresh `basic_writer<Buffer>` over an empty buffer returns `b.length` and
leaves the buffer equal to `b`; a `basic_reader<Buffer>` over that buffer
then reads back exactly `b`, returning `b.length`. -/
theorem buffer_roundtrip_identity (b : List Byte) :
    bufWrite ⟨[], 0⟩ (some b) b.length = (b.length, ⟨b, b.length⟩) ∧
    bufRead ⟨some (bufWrite ⟨[], 0⟩ (some b) b.length).2.buf, 0⟩ false b.length
      = (b.length, b, ⟨some b, b.length⟩) := by
  refine ⟨bufWrite_fresh b, ?_⟩
  rw [bufWrite_fresh b]
  exact bufRead_all b

/-- C6: the `basic_reader<Buffer>::read` contract.  Unbound source, null
destination, zero request, or cursor at/past the end: return 0 and change
nothing.  Otherwise (bound, non-null, `1 ≤ n`, `c < k`): copy exactly
`min n (k - c)` bytes starting at the cursor, advance the cursor by that
count and return it.  In particular a fresh reader over `k` bytes returns
exactly `k` for a request of `k + 5`, and a subsequent read of any size
returns 0 leaving the state unchanged. -/
theorem bufferReader_read_contract :
    (∀ (c : Nat) (dn : Bool) (n : Nat),
      bufRead ⟨none, c⟩ dn n = (0, [], ⟨none, c⟩)) ∧
    (∀ (d : List Byte) (c n : Nat),
      bufRead ⟨some d, c⟩ true n = (0, [], ⟨some d, c⟩)) ∧
    (∀ (d : List Byte) (c : Nat) (dn : Bool),
      bufRead ⟨some d, c⟩ dn 0 = (0, [], ⟨some d, c⟩)) ∧
    (∀ (d : List Byte) (c : Nat) (dn : Bool) (n : Nat), d.length ≤ c →
      bufRead ⟨some d, c⟩ dn n = (0, [], ⟨some d, c⟩)) ∧
    (∀ (d : List Byte) (c n : Nat), c < d.length → 1 ≤ n →
      bufRead ⟨some d, c⟩ false n =
        (min n (d.length - c), (d.drop c).take (min n (d.length - c)),
          ⟨some d, c + min n (d.length - c)⟩)) ∧
    (∀ (d : List Byte) (dn2 : Bool) (n2 : Nat),
      (bufRead ⟨some d, 0⟩ false (d.length + 5)).1 = d.length ∧
      bufRead (bufRead ⟨some d, 0⟩ false (d.length + 5)).2.2 dn2 n2 =
        (0, [], (bufRead ⟨some d, 0⟩ false (d.length + 5)).2.2)) := by
  refine ⟨fun c dn n => rfl, fun d c n => by simp [bufRead],
    fun d c dn => by simp [bufRead], ?_, ?_, ?_⟩
  · intro d c dn n h
    unfold bufRead
    have hr : d.length - c = 0 := by omega
    simp [hr]
  · intro d c n hc hn
    unfold bufRead
    have h1 : ¬ (false = true ∨ n < 1) := by simp; omega
    have h2 : ¬ (d.length - c < 1) := by omega
    have h3 : (if d.length - c < n then d.length - c else n) = min n (d.length - c) := by
      split <;> omega
    simp only [if_neg h1, if_neg h2, h3]
  · intro d dn2 n2
    cases d with
    | nil => cases dn2 <;> simp [bufRead]
    | cons x xs =>
      have hfirst :
          bufRead ⟨some (x :: xs), 0⟩ false ((x :: xs).length + 5) =
            ((x :: xs).length, x :: xs, ⟨some (x :: xs), (x :: xs).length⟩) := by
        unfold bufRead
        simp
      rw [hfirst]
      refine ⟨rfl, ?_⟩
      unfold bufRead
      have h2 : (x :: xs).length - (x :: xs).length < 1 := by omega
      by_cases hdn : dn2 = true ∨ n2 < 1
      · simp [hdn]
      · simp [if_neg hdn, h2]

/-- Witness for the read contract: a reader over `[1,2,3]` at cursor 1
with a request of 7 copies `min 7 2 = 2` bytes `[2,3]` and ends at cursor
3; a reader whose cursor is at the end returns 0 unchanged. -/
theorem bufferReader_read_contract_witness :
    bufRead ⟨some [1, 2, 3], 1⟩ false 7 =
      (min 7 ([1, 2, 3].length - 1), ([1, 2, 3].drop 1).take (min 7 ([1, 2, 3].length - 1)),
        ⟨some [1, 2, 3], 1 + min 7 ([1, 2, 3].length - 1)⟩) ∧
    bufRead ⟨some [1, 2, 3], 3⟩ false 4 = (0, [], ⟨some [1, 2, 3], 3⟩) := by
  exact ⟨bufferReader_read_contract.2.2.2.2.1 [1, 2, 3] 1 7 (by decide) (by decide),
    bufferReader_read_contract.2.2.2.1 [1, 2, 3] 3 false 4 (by decide)⟩

/-- C8 (amended): over a bound buffer-backed reader or writer of `size`
bytes with cursor `c ≤ size`, `seek(-1)` and `seek(size + 1000)` yield
`pos() = size`, `seek(0)` yields 0, `offset(-(c+1000))` yields 0 and
`offset(size*2)` yields `size`.  The stream-backed reader and writer
satisfy the three seek clauses as well (their logical size being the
stream extent past the begin snapshot), but their `offset` performs a
bare relative `seekg`/`seekp` and does not clamp (see the
counterexample). -/
theorem seek_offset_clamping_amended :
    (∀ (d : List Byte) (c : Nat), c ≤ d.length →
      (bufSeek ⟨some d, c⟩ (-1)).1 = d.length ∧
      (bufSeek ⟨some d, c⟩ ((d.length : Int) + 1000)).1 = d.length ∧
      (bufSeek ⟨some d, c⟩ 0).1 = 0 ∧
      (bufOffset ⟨some d, c⟩ (-((c : Int) + 1000))).1 = 0 ∧
      (bufOffset ⟨some d, c⟩ (2 * (d.length : Int))).1 = d.length ∧
      (bwSeek ⟨d, c⟩ (-1)).1 = d.length ∧
      (bwSeek ⟨d, c⟩ ((d.length : Int) + 1000)).1 = d.length ∧
      (bwSeek ⟨d, c⟩ 0).1 = 0 ∧
      (bwOffset ⟨d, c⟩ (-((c : Int) + 1000))).1 = 0 ∧
      (bwOffset ⟨d, c⟩ (2 * (d.length : Int))).1 = d.length) ∧
    (∀ (sz g beg remain : Nat) (eb : Bool), beg ≤ sz →
      sz < 18446744073709551616 →
      (srSeek ⟨⟨sz, g, eb, false⟩, beg, remain⟩ (-1)).1 = sz - beg ∧
      (srSeek ⟨⟨sz, g, eb, false⟩, beg, remain⟩
        (((sz - beg : Nat) : Int) + 1000)).1 = sz - beg ∧
      (srSeek ⟨⟨sz, g, eb, false⟩, beg, remain⟩ 0).1 = 0) ∧
    (∀ (sz p beg : Nat) (cap : Option Nat), beg ≤ sz →
      sz < 18446744073709551616 →
      (swSeek ⟨⟨sz, p, false, cap⟩, beg⟩ (-1)).1 = sz - beg ∧
      (swSeek ⟨⟨sz, p, false, cap⟩, beg⟩
        (((sz - beg : Nat) : Int) + 1000)).1 = sz - beg ∧
      (swSeek ⟨⟨sz, p, false, cap⟩, beg⟩ 0).1 = 0) := by
  refine ⟨?_, ?_, ?_⟩
  · intro d c h
    unfold bufSeek bufOffset bwSeek bwOffset
    refine ⟨?_, ?_, ?_, ?_, ?_, ?_, ?_, ?_, ?_, ?_⟩ <;>
      simp only [] <;> split <;> try omega
    all_goals (split <;> omega)
  · intro sz g beg remain eb hb hm
    unfold srSeek seekgEnd seekgAbs srPos tellg size_t_of
    dsimp only
    simp only [Bool.false_eq_true, or_self, if_false]
    refine ⟨?_, ?_, ?_⟩
    · rw [if_neg (by norm_num : ¬ (0 : Int) ≤ -1)]
      omega
    · rw [if_pos (by omega : (0 : Int) ≤ ((sz - beg : Nat) : Int) + 1000),
        if_pos (by omega : (sz : Int) < ((sz - beg : Nat) : Int) + 1000 + beg)]
      omega
    · rw [if_pos (by omega : (0 : Int) ≤ 0),
        if_neg (by omega : ¬ (sz : Int) < 0 + (beg : Int)),
        if_neg (by omega : ¬ (0 : Int) + (beg : Int) < 0)]
      dsimp only
      simp only [Bool.false_eq_true, or_self, if_false]
      omega
  · intro sz p beg cap hb hm
    unfold swSeek seekpEnd seekpAbs swPos tellp size_t_of
    dsimp only
    simp only [Bool.false_eq_true, if_false]
    refine ⟨?_, ?_, ?_⟩
    · rw [if_neg (by omega : ¬ ((0 : Int) ≤ -1 ∧ -1 + (beg : Int) < (sz : Int)))]
      dsimp only
      simp only [Bool.false_eq_true, if_false]
      omega
    · rw [if_neg (by omega :
        ¬ ((0 : Int) ≤ ((sz - beg : Nat) : Int) + 1000 ∧
          ((sz - beg : Nat) : Int) + 1000 + beg < (sz : Int)))]
      dsimp only
      simp only [Bool.false_eq_true, if_false]
      omega
    · by_cases hlt : (0 : Int) + (beg : Int) < (sz : Int)
      · rw [if_pos (show (0 : Int) ≤ 0 ∧ (0 : Int) + (beg : Int) < (sz : Int) from
          ⟨le_refl 0, hlt⟩)]
        try dsimp only
        try simp only [Bool.false_eq_true, if_false]
        rw [if_neg (by omega : ¬ (0 : Int) + (beg : Int) < 0)]
        try dsimp only
        try simp only [Bool.false_eq_true, if_false]
        omega
      · rw [if_neg (by omega : ¬ ((0 : Int) ≤ 0 ∧ (0 : Int) + (beg : Int) < (sz : Int)))]
        dsimp only
        simp only [Bool.false_eq_true, if_false]
        omega

/-- Witness for the clamping theorem: the buffer backends at `d = [7, 7]`,
`c = 1`, and the stream backends over a 10-byte stream opened at absolute
offset 3 (logical size 7). -/
theorem seek_offset_clamping_amended_witness :
    ((bufSeek ⟨some [7, 7], 1⟩ (-1)).1 = 2 ∧
      (bufSeek ⟨some [7, 7], 1⟩ 1002).1 = 2 ∧
      (bufSeek ⟨some [7, 7], 1⟩ 0).1 = 0 ∧
      (bufOffset ⟨some [7, 7], 1⟩ (-1001)).1 = 0 ∧
      (bufOffset ⟨some [7, 7], 1⟩ 4).1 = 2 ∧
      (bwSeek ⟨[7, 7], 1⟩ (-1)).1 = 2 ∧
      (bwSeek ⟨[7, 7], 1⟩ 1002).1 = 2 ∧
      (bwSeek ⟨[7, 7], 1⟩ 0).1 = 0 ∧
      (bwOffset ⟨[7, 7], 1⟩ (-1001)).1 = 0 ∧
      (bwOffset ⟨[7, 7], 1⟩ 4).1 = 2) ∧
    ((srSeek ⟨⟨10, 3, false, false⟩, 3, 7⟩ (-1)).1 = 10 - 3 ∧
      (srSeek ⟨⟨10, 3, false, false⟩, 3, 7⟩ (((10 - 3 : Nat) : Int) + 1000)).1 = 10 - 3 ∧
      (srSeek ⟨⟨10, 3, false, false⟩, 3, 7⟩ 0).1 = 0) ∧
    ((swSeek ⟨⟨10, 3, false, none⟩, 3⟩ (-1)).1 = 10 - 3 ∧
      (swSeek ⟨⟨10, 3, false, none⟩, 3⟩ (((10 - 3 : Nat) : Int) + 1000)).1 = 10 - 3 ∧
      (swSeek ⟨⟨10, 3, false, none⟩, 3⟩ 0).1 = 0) := by
  refine ⟨?_, ?_, ?_⟩
  · simpa using seek_offset_clamping_amended.1 [7, 7] 1 (by decide)
  · exact seek_offset_clamping_amended.2.1 10 3 3 7 false (by decide) (by decide)
  · exact seek_offset_clamping_amended.2.2 10 3 3 none (by decide) (by decide)

lemma size_t_of_coe (n : Nat) (h : n < 18446744073709551616) :
    size_t_of (n : Int) = n := by
  unfold size_t_of
  omega

lemma wf_remInv (r : SReader) (h : SReaderWF r) : remInv r := by
  obtain ⟨hf, he, hm, hbg, hgs, hr⟩ := h
  unfold remInv srPos tellg size_t_of
  rw [hf, he]
  simp only [Bool.false_eq_true, or_self, if_false]
  omega

lemma mkSReader_good (sz g : Nat) (hg : g ≤ sz)
    (hsz : sz < 18446744073709551616) :
    mkSReader ⟨sz, g, false, false⟩ = ⟨⟨sz, g, false, false⟩, g, sz - g⟩ := by
  unfold mkSReader seekgEnd seekgAbs tellg
  simp only [Bool.false_eq_true, or_self, if_false]
  rw [size_t_of_coe _ (by omega), size_t_of_coe _ hsz]
  rw [if_neg (by omega : ¬ ((g : Nat) : Int) < 0)]
  simp

lemma mkSWriter_good (sz p : Nat) (cap : Option Nat)
    (hp : p < 18446744073709551616) :
    mkSWriter ⟨sz, p, false, cap⟩ = ⟨⟨sz, p, false, cap⟩, p⟩ := by
  unfold mkSWriter tellp
  simp only [Bool.false_eq_true, if_false]
  rw [size_t_of_coe _ hp]

lemma srRead_wf (r : SReader) (dn : Bool) (n : Nat) (h : SReaderWF r) :
    SReaderWF (srRead r dn n).2 := by
  obtain ⟨⟨sz, g, eb, fb⟩, beg, remain⟩ := r
  obtain ⟨hf, he, hm, hbg, hgs, hr⟩ := h
  dsimp at hf he hm hbg hgs hr
  subst hf he hr
  unfold srRead isRead SReaderWF
  simp only [Bool.false_eq_true, false_or, or_self, if_false]
  by_cases h1 : sz - g < 1
  · rw [if_pos h1]
    exact ⟨rfl, rfl, hm, hbg, hgs, rfl⟩
  · rw [if_neg h1]
    by_cases h2 : sz - g < n
    · rw [if_pos h2, if_pos (by omega : sz - g ≤ sz - g)]
      exact ⟨rfl, rfl, hm, by dsimp; omega, by dsimp; omega, by dsimp; omega⟩
    · rw [if_neg h2, if_pos (by omega : n ≤ sz - g)]
      exact ⟨rfl, rfl, hm, by dsimp; omega, by dsimp; omega, by dsimp; omega⟩

lemma srSeek_reestablish (r : SReader) (t : Int) (hf : r.si.failbit = false)
    (hb : r.beg ≤ r.si.size) (hm : r.si.size < 18446744073709551616)
    (ht : 0 ≤ t) : SReaderWF (srSeek r t).2 := by
  obtain ⟨⟨sz, g, eb, fb⟩, beg, remain⟩ := r
  dsimp at hf hb hm
  subst hf
  unfold srSeek seekgEnd seekgAbs tellg SReaderWF size_t_of
  simp only [Bool.false_eq_true, or_self, if_false, if_pos ht]
  by_cases hp : (sz : Int) < t + (beg : Int)
  · rw [if_pos hp]
    exact ⟨rfl, rfl, hm, by dsimp; omega, by dsimp; omega, by dsimp; omega⟩
  · rw [if_neg hp, if_neg (by omega : ¬ t + (beg : Int) < 0)]
    exact ⟨rfl, rfl, hm, by dsimp; omega, by dsimp; omega, by dsimp; omega⟩

/-- C3 (amended): the invariant `_remain = logical size − logical
position` holds after construction over a well-positioned, un-faulted
stream, and is preserved by every `read` and re-established by every
`seek` with a non-negative target — the seek clause assumes nothing about
`_remain` or the get position, so it covers the broken states an `offset`
leaves behind; a negative-target `seek` or an `offset` call moves the
position while leaving `_remain` untouched and so can break the invariant
(see the counterexample). -/
theorem streamReader_remain_invariant_amended :
    (∀ si : IStream, si.failbit = false → si.eofbit = false →
      si.g ≤ si.size → si.size < 18446744073709551616 →
      SReaderWF (mkSReader si) ∧ remInv (mkSReader si)) ∧
    (∀ (r : SReader) (dn : Bool) (n : Nat), SReaderWF r →
      SReaderWF (srRead r dn n).2 ∧ remInv (srRead r dn n).2) ∧
    (∀ (r : SReader) (t : Int), r.si.failbit = false → r.beg ≤ r.si.size →
      r.si.size < 18446744073709551616 → 0 ≤ t →
      SReaderWF (srSeek r t).2 ∧ remInv (srSeek r t).2) := by
  refine ⟨?_, ?_, ?_⟩
  · intro si hf he hg hm
    obtain ⟨sz, g, eb, fb⟩ := si
    dsimp at hf he hg hm
    subst hf he
    rw [mkSReader_good sz g hg hm]
    have hwf : SReaderWF ⟨⟨sz, g, false, false⟩, g, sz - g⟩ :=
      ⟨rfl, rfl, hm, le_refl g, hg, rfl⟩
    exact ⟨hwf, wf_remInv _ hwf⟩
  · intro r dn n h
    have hwf := srRead_wf r dn n h
    exact ⟨hwf, wf_remInv _ hwf⟩
  · intro r t hf hb hm ht
    have hwf := srSeek_reestablish r t hf hb hm ht
    exact ⟨hwf, wf_remInv _ hwf⟩

/-- Witness for the amended invariant: a reader over a 10-byte stream
opened at absolute offset 3, then after a 4-byte read; and `seek(1)`
applied to the invariant-breaking state left by `offset(1)` on a fresh
reader over 2 bytes (where `_remain = 2` but size − position = 1),
re-establishing the invariant there. -/
theorem streamReader_remain_invariant_amended_witness :
    (SReaderWF (mkSReader ⟨10, 3, false, false⟩) ∧
      remInv (mkSReader ⟨10, 3, false, false⟩)) ∧
    (SReaderWF (srRead (mkSReader ⟨10, 3, false, false⟩) false 4).2 ∧
      remInv (srRead (mkSReader ⟨10, 3, false, false⟩) false 4).2) ∧
    (SReaderWF (srSeek (srOffset (mkSReader ⟨2, 0, false, false⟩) 1).2 1).2 ∧
      remInv (srSeek (srOffset (mkSReader ⟨2, 0, false, false⟩) 1).2 1).2) :=
  ⟨streamReader_remain_invariant_amended.1 ⟨10, 3, false, false⟩ rfl rfl
      (by decide) (by decide),
    streamReader_remain_invariant_amended.2.1 (mkSReader ⟨10, 3, false, false⟩)
      false 4 (by decide),
    streamReader_remain_invariant_amended.2.2
      (srOffset (mkSReader ⟨2, 0, false, false⟩) 1).2 1 (by decide) (by decide)
      (by decide) (by decide)⟩

/-- C4 (amended): `basic_writer<Stream>::seek(t)` with `0 ≤ t` whose
absolute target `_beg + t` is at or beyond the current end does not extend
the stream, but it is not a no-op either: the put position ends at the
current end (the initial `seekp(0, end)` is never undone), so `pos()`
becomes `size`, the clamp to the end. -/
theorem streamWriter_seek_beyond_end_clamps (so : OStream) (beg : Nat)
    (t : Int) (hf : so.failbit = false) (hb : beg ≤ so.size)
    (hm : so.size < 18446744073709551616) (ht : 0 ≤ t)
    (hbeyond : (so.size : Int) ≤ t + beg) :
    (swSeek ⟨so, beg⟩ t).2.so.size = so.size ∧
    (swSeek ⟨so, beg⟩ t).2.so.p = so.size ∧
    (swSeek ⟨so, beg⟩ t).1 = so.size - beg := by
  obtain ⟨sz, p, fb, cap⟩ := so
  dsimp at hf hb hm hbeyond
  subst hf
  unfold swSeek seekpEnd tellp swPos size_t_of
  dsimp only
  simp only [Bool.false_eq_true, if_false]
  rw [if_neg (by omega : ¬ (0 ≤ t ∧ t + (beg : Int) < (sz : Int)))]
  refine ⟨rfl, rfl, ?_⟩
  unfold tellp
  simp only [Bool.false_eq_true, if_false]
  omega

/-- Witness: a writer over a 5-byte stream opened at absolute offset 0,
`seek(10)`: the stream keeps size 5, the put position lands on 5 and the
call returns 5. -/
theorem streamWriter_seek_beyond_end_clamps_witness :
    (swSeek ⟨⟨5, 2, false, none⟩, 0⟩ 10).2.so.size = 5 ∧
    (swSeek ⟨⟨5, 2, false, none⟩, 0⟩ 10).2.so.p = 5 ∧
    (swSeek ⟨⟨5, 2, false, none⟩, 0⟩ 10).1 = 5 - 0 :=
  streamWriter_seek_beyond_end_clamps ⟨5, 2, false, none⟩ 0 10 rfl
    (by decide) (by decide) (by decide) (by decide)

/-- C7: constructing a stream reader or writer over a stream at absolute
offset `B` snapshots `B` as `_beg`, giving `pos() = 0` right after
construction; the reader constructor probes the end (computing
`_remain = size − B`) and restores the stream to `B`; and subsequent
`seek`/`offset` targets are interpreted relative to `B`: in-range
`seek(t)` and forward `offset(o)` land on logical position `t` resp. `o`. -/
theorem stream_begin_snapshot_relative_positions :
    (∀ B sz : Nat, B ≤ sz → sz < 18446744073709551616 →
      (mkSReader ⟨sz, B, false, false⟩).beg = B ∧
      (mkSReader ⟨sz, B, false, false⟩).si.g = B ∧
      (mkSReader ⟨sz, B, false, false⟩).remain = sz - B ∧
      srPos (mkSReader ⟨sz, B, false, false⟩) = 0) ∧
    (∀ (B sz : Nat) (cap : Option Nat), B < 18446744073709551616 →
      (mkSWriter ⟨sz, B, false, cap⟩).beg = B ∧
      swPos (mkSWriter ⟨sz, B, false, cap⟩) = 0) ∧
    (∀ (B sz : Nat) (t : Int), B ≤ sz → sz < 18446744073709551616 →
      0 ≤ t → t + B ≤ sz →
      (srSeek (mkSReader ⟨sz, B, false, false⟩) t).1 = t.toNat) ∧
    (∀ (B sz : Nat) (o : Int), B ≤ sz → sz < 18446744073709551616 →
      0 ≤ o → o + B < 18446744073709551616 →
      (srOffset (mkSReader ⟨sz, B, false, false⟩) o).1 = o.toNat) ∧
    (∀ (B sz : Nat) (cap : Option Nat) (t : Int), B ≤ sz →
      sz < 18446744073709551616 → 0 ≤ t → t + B < sz →
      (swSeek (mkSWriter ⟨sz, B, false, cap⟩) t).1 = t.toNat) := by
  refine ⟨?_, ?_, ?_, ?_, ?_⟩
  · intro B sz hb hm
    rw [mkSReader_good sz B hb hm]
    refine ⟨rfl, rfl, rfl, ?_⟩
    unfold srPos tellg size_t_of
    simp only [Bool.false_eq_true, or_self, if_false]
    omega
  · intro B sz cap hb
    rw [mkSWriter_good sz B cap hb]
    refine ⟨rfl, ?_⟩
    unfold swPos tellp size_t_of
    simp only [Bool.false_eq_true, if_false]
    omega
  · intro B sz t hb hm ht hin
    rw [mkSReader_good sz B hb hm]
    unfold srSeek seekgEnd seekgAbs tellg srPos size_t_of
    simp only [Bool.false_eq_true, or_self, if_false, if_pos ht]
    rw [if_neg (by omega : ¬ (sz : Int) < t + (B : Int)),
      if_neg (by omega : ¬ t + (B : Int) < 0)]
    unfold tellg
    simp only [Bool.false_eq_true, or_self, if_false]
    omega
  · intro B sz o hb hm ho hsm
    rw [mkSReader_good sz B hb hm]
    unfold srOffset seekgCur srPos tellg size_t_of
    dsimp only
    simp only [Bool.false_eq_true, or_self, if_false]
    rw [if_neg (by omega : ¬ (B : Int) + o < 0)]
    simp only [Bool.false_eq_true, or_self, if_false]
    omega
  · intro B sz cap t hb hm ht hin
    rw [mkSWriter_good sz B cap (by omega)]
    unfold swSeek seekpEnd tellp swPos size_t_of
    dsimp only
    simp only [Bool.false_eq_true, if_false]
    rw [if_pos ⟨ht, by omega⟩]
    unfold seekpAbs tellp
    rw [if_neg (by simp : ¬ (false : Bool) = true),
      if_neg (by omega : ¬ t + (B : Int) < 0)]
    simp only [Bool.false_eq_true, if_false]
    omega

/-- Witness: a 10-byte stream opened at absolute offset 3 — the reader
and writer report `pos() = 0` at construction, `_remain = 7`, and
`seek(2)` / `offset(2)` land on logical position 2. -/
theorem stream_begin_snapshot_relative_positions_witness :
    ((mkSReader ⟨10, 3, false, false⟩).beg = 3 ∧
      (mkSReader ⟨10, 3, false, false⟩).si.g = 3 ∧
      (mkSReader ⟨10, 3, false, false⟩).remain = 10 - 3 ∧
      srPos (mkSReader ⟨10, 3, false, false⟩) = 0) ∧
    ((mkSWriter ⟨10, 3, false, none⟩).beg = 3 ∧
      swPos (mkSWriter ⟨10, 3, false, none⟩) = 0) ∧
    (srSeek (mkSReader ⟨10, 3, false, false⟩) 2).1 = (2 : Int).toNat ∧
    (srOffset (mkSReader ⟨10, 3, false, false⟩) 2).1 = (2 : Int).toNat ∧
    (swSeek (mkSWriter ⟨10, 3, false, none⟩) 2).1 = (2 : Int).toNat :=
  ⟨stream_begin_snapshot_relative_positions.1 3 10 (by decide) (by decide),
    stream_begin_snapshot_relative_positions.2.1 3 10 none (by decide),
    stream_begin_snapshot_relative_positions.2.2.1 3 10 2 (by decide) (by decide)
      (by decide) (by decide),
    stream_begin_snapshot_relative_positions.2.2.2.1 3 10 2 (by decide) (by decide)
      (by decide) (by decide),
    stream_begin_snapshot_relative_positions.2.2.2.2 3 10 none 2 (by decide)
      (by decide) (by decide) (by decide)⟩

/-- C9: `basic_writer<Stream>::write(src, n)` returns 0 when the source is
null, `n = 0` or the stream is already failed (leaving the writer
unchanged); otherwise it returns the position delta the stream confirms:
the full `n` on a successful write (unbounded device, or within the device
capacity), and 0 when the write faults, because the post-write `tellp`
then reports `-1`. -/
theorem streamWriter_write_contract :
    (∀ (w : SWriter) (n : Nat), swWrite w true n = (0, w)) ∧
    (∀ (w : SWriter) (sn : Bool), swWrite w sn 0 = (0, w)) ∧
    (∀ (w : SWriter) (sn : Bool) (n : Nat), w.so.failbit = true →
      swWrite w sn n = (0, w)) ∧
    (∀ (w : SWriter) (n : Nat), w.so.failbit = false → 1 ≤ n →
      w.so.cap = none → w.so.p + n < 18446744073709551616 →
      (swWrite w false n).1 = n ∧ (swWrite w false n).2.so.p = w.so.p + n) ∧
    (∀ (w : SWriter) (n c : Nat), w.so.failbit = false → 1 ≤ n →
      w.so.cap = some c → w.so.p + n ≤ c →
      w.so.p + n < 18446744073709551616 →
      (swWrite w false n).1 = n ∧ (swWrite w false n).2.so.p = w.so.p + n) ∧
    (∀ (w : SWriter) (n c : Nat), w.so.failbit = false → 1 ≤ n →
      w.so.cap = some c → c < w.so.p + n →
      (swWrite w false n).1 = 0 ∧
      (swWrite w false n).2.so.failbit = true) := by
  refine ⟨?_, ?_, ?_, ?_, ?_, ?_⟩
  · intro w n
    unfold swWrite
    rw [if_pos (Or.inl rfl)]
  · intro w sn
    unfold swWrite
    rw [if_pos (Or.inr (Or.inr (by omega)))]
  · intro w sn n hf
    unfold swWrite
    rw [if_pos (Or.inr (Or.inl hf))]
  · intro w n hf hn hcap hm
    obtain ⟨⟨sz, p, fb, cap⟩, beg⟩ := w
    dsimp at hf hcap hm
    subst hf hcap
    unfold swWrite osWrite tellp size_t_of
    rw [if_neg (by simp; omega)]
    dsimp only
    simp only [Bool.false_eq_true, if_false]
    rw [if_neg (by omega : ¬ (((p + n : Nat) : Int)) = -1)]
    constructor
    · omega
    · rfl
  · intro w n c hf hn hcap hc hm
    obtain ⟨⟨sz, p, fb, cap⟩, beg⟩ := w
    dsimp at hf hcap hc hm
    subst hf hcap
    unfold swWrite osWrite tellp size_t_of
    rw [if_neg (by simp; omega)]
    dsimp only
    simp only [Bool.false_eq_true, if_false]
    rw [if_pos hc]
    dsimp only
    simp only [Bool.false_eq_true, if_false]
    rw [if_neg (by omega : ¬ (((p + n : Nat) : Int)) = -1)]
    constructor
    · omega
    · rfl
  · intro w n c hf hn hcap hc
    obtain ⟨⟨sz, p, fb, cap⟩, beg⟩ := w
    dsimp at hf hcap hc
    subst hf hcap
    unfold swWrite osWrite tellp size_t_of
    rw [if_neg (by simp; omega)]
    dsimp only
    simp only [Bool.false_eq_true, if_false]
    rw [if_neg (by omega : ¬ p + n ≤ c)]
    simp

/-- Witness for the write contract: null source, zero size, failed
stream, a successful 4-byte write at position 2 of an unbounded device, a
successful capped write, and a faulted write past a 3-byte capacity. -/
theorem streamWriter_write_contract_witness :
    swWrite ⟨⟨5, 2, false, none⟩, 0⟩ true 4 = (0, ⟨⟨5, 2, false, none⟩, 0⟩) ∧
    swWrite ⟨⟨5, 2, false, none⟩, 0⟩ false 0 = (0, ⟨⟨5, 2, false, none⟩, 0⟩) ∧
    swWrite ⟨⟨5, 2, true, none⟩, 0⟩ false 4 = (0, ⟨⟨5, 2, true, none⟩, 0⟩) ∧
    ((swWrite ⟨⟨5, 2, false, none⟩, 0⟩ false 4).1 = 4 ∧
      (swWrite ⟨⟨5, 2, false, none⟩, 0⟩ false 4).2.so.p = 2 + 4) ∧
    ((swWrite ⟨⟨2, 0, false, some 9⟩, 0⟩ false 4).1 = 4 ∧
      (swWrite ⟨⟨2, 0, false, some 9⟩, 0⟩ false 4).2.so.p = 0 + 4) ∧
    ((swWrite ⟨⟨2, 0, false, some 3⟩, 0⟩ false 4).1 = 0 ∧
      (swWrite ⟨⟨2, 0, false, some 3⟩, 0⟩ false 4).2.so.failbit = true) :=
  ⟨streamWriter_write_contract.1 ⟨⟨5, 2, false, none⟩, 0⟩ 4,
    streamWriter_write_contract.2.1 ⟨⟨5, 2, false, none⟩, 0⟩ false,
    streamWriter_write_contract.2.2.1 ⟨⟨5, 2, true, none⟩, 0⟩ false 4 rfl,
    streamWriter_write_contract.2.2.2.1 ⟨⟨5, 2, false, none⟩, 0⟩ 4 rfl
      (by decide) rfl (by decide),
    streamWriter_write_contract.2.2.2.2.1 ⟨⟨2, 0, false, some 9⟩, 0⟩ 4 9 rfl
      (by decide) rfl (by decide) (by decide),
    streamWriter_write_contract.2.2.2.2.2 ⟨⟨2, 0, false, some 3⟩, 0⟩ 4 3 rfl
      (by decide) rfl (by decide)⟩

end Bio
